import Mathlib

/-!
Shallow embedding of the `nets` host network-monitor pipeline:
the collector's direction inference and port decoding
(src/app/collector/src/windows/network_monitor.rs), the anomaly
detector's hidden-listener check
(src/app/collector/src/windows/anomaly_detector.rs), the rule DSL and
analyzer (src/app/analyzer/src), the normalizer
(src/app/normalizer/src/lib.rs) and the encrypted store
(src/app/storage/src/lib.rs).

Timestamps (chrono `DateTime<Utc>`) are embedded as `Int` nanoseconds
since the Unix epoch; durations as `Int` nanoseconds.  Byte strings are
`List Nat`.  External library primitives (serde_json serialization,
ring's AES-256-GCM seal, regex compilation) are taken as explicit
function parameters, since they are deterministic functions not defined
in this repository.
-/

/-- `FlowDirection` from src/app/collector/src/lib.rs. -/
inductive FlowDirection where
  | Inbound
  | Outbound
  | Lateral
deriving DecidableEq, Repr

/-- `ProcessIdentity` from src/app/collector/src/lib.rs. -/
structure ProcessIdentity where
  pid : Int
  ppid : Option Int
  name : Option String
  exe_path : Option String
  sha256_16 : Option String
  user : Option String
  signed : Option Bool
deriving DecidableEq, Repr

/-- `Layer2EventKind` from src/app/collector/src/lib.rs. -/
inductive Layer2EventKind where
  | Arp
  | Nd
deriving DecidableEq, Repr

/-- `Layer2EventMetadata` from src/app/collector/src/lib.rs. -/
structure Layer2EventMetadata where
  kind : Layer2EventKind
  operation : String
  mac_src : Option String
  ip_src : Option String
  mac_dst : Option String
  ip_dst : Option String
deriving DecidableEq, Repr

/-- `FlowRisk` from src/app/collector/src/lib.rs. -/
structure FlowRisk where
  score : Nat
  level : String
  rule_id : Option String
  rationale : Option String
deriving DecidableEq, Repr

/-- `FlowEvent` from src/app/collector/src/lib.rs.  `ts_first`/`ts_last`
are nanoseconds since the Unix epoch. -/
structure FlowEvent where
  ts_first : Int
  ts_last : Int
  proto : String
  src_ip : String
  src_port : Nat
  dst_ip : String
  dst_port : Nat
  iface : Option String
  direction : FlowDirection
  state : Option String
  bytes : Nat
  packets : Nat
  process : Option ProcessIdentity
  layer2 : Option Layer2EventMetadata
  risk : Option FlowRisk
  sni : Option String
  alpn : Option String
  ja3 : Option String
  dns_qname : Option String
  dns_qtype : Option String
  dns_rcode : Option String
deriving DecidableEq, Repr

/-- `NormalizedFlow` from src/app/normalizer/src/lib.rs. -/
structure NormalizedFlow where
  window_start : Int
  window_end : Int
  proto : String
  src_ip : String
  src_port : Nat
  dst_ip : String
  dst_port : Nat
  direction : FlowDirection
  bytes : Nat
  packets : Nat
  process : Option String
deriving DecidableEq, Repr

/-- `Severity` from src/app/analyzer/src/lib.rs. -/
inductive Severity where
  | Low
  | Medium
  | High
deriving DecidableEq, Repr

/-- `Rule` from src/app/analyzer/src/dsl.rs. -/
structure Rule where
  id : String
  severity : Severity
  summary : Option String
  rationale : Option String
  suggested_action : Option String
  expression : String
deriving DecidableEq, Repr

/-- `Alert` from src/app/analyzer/src/lib.rs (`ts` as epoch nanoseconds). -/
structure Alert where
  id : String
  ts : Int
  severity : Severity
  rule_id : String
  summary : String
  flow_refs : List String
  process_ref : Option String
  rationale : String
  suggested_action : Option String
deriving DecidableEq, Repr

/-! ## Rule DSL (src/app/analyzer/src/dsl.rs) -/

/-- The double-quote character, used by `tokens[2].trim_matches('"')`. -/
def quoteChar : Char := Char.ofNat 34

/-- Whitespace splitter over characters (accumulator holds the current
token reversed). -/
def splitWhitespaceAux : List Char → List Char → List String
  | [], acc => if acc.isEmpty then [] else [String.mk acc.reverse]
  | c :: cs, acc =>
      if c.isWhitespace then
        (if acc.isEmpty then [] else [String.mk acc.reverse]) ++
          splitWhitespaceAux cs []
      else splitWhitespaceAux cs (c :: acc)

/-- Rust `str::split_whitespace`: split on whitespace, discarding empty
pieces.  Used by `evaluate_expression` to tokenize the expression. -/
def tokenizeExpr (s : String) : List String :=
  splitWhitespaceAux s.data []

/-- Single-character splitter with Rust `str::split(c)` semantics:
empty pieces are kept and the result is never empty. -/
def splitOnCharAux (sep : Char) : List Char → List Char → List (List Char)
  | [], acc => [acc.reverse]
  | c :: cs, acc =>
      if c == sep then acc.reverse :: splitOnCharAux sep cs []
      else splitOnCharAux sep cs (c :: acc)

/-- `True` when the first list is a prefix of the second
(Rust `str::starts_with`). -/
def listHasPre : List Char → List Char → Bool
  | [], _ => true
  | _ :: _, [] => false
  | p :: ps, c :: cs => p == c && listHasPre ps cs

/-- Rust `str::starts_with(pat)` on our list representation. -/
def strStarts (s pat : String) : Bool :=
  listHasPre pat.data s.data

/-- Rust `str::trim_matches(c)`: repeatedly strip the character from
both ends. -/
def trimMatchesChar (c : Char) (s : String) : String :=
  String.mk (((s.data.dropWhile (fun x => x == c)).reverse.dropWhile
    (fun x => x == c)).reverse)

/-- Rust `str::trim_start_matches(c)` (char pattern). -/
def trimStartMatchesChar (c : Char) (s : String) : String :=
  String.mk (s.data.dropWhile (fun x => x == c))

/-- Rust `str::trim_end_matches(c)` (char pattern). -/
def trimEndMatchesChar (c : Char) (s : String) : String :=
  String.mk ((s.data.reverse.dropWhile (fun x => x == c)).reverse)

/-- Rust `str::trim` (whitespace from both ends). -/
def trimAsciiWs (s : String) : String :=
  String.mk (((s.data.dropWhile Char.isWhitespace).reverse.dropWhile
    Char.isWhitespace).reverse)

/-- Fuelled helper for `trim_start_matches(pat)` with a string pattern:
repeatedly strip the pattern while it is a prefix. -/
def stripLeadingAllL (pat : List Char) : Nat → List Char → List Char
  | 0, s => s
  | Nat.succ fuel, s =>
      if pat.length > 0 && listHasPre pat s then
        stripLeadingAllL pat fuel (s.drop pat.length)
      else s

/-- Rust `str::trim_start_matches(pat)` (string pattern). -/
def trimStartMatchesStr (pat s : String) : String :=
  String.mk (stripLeadingAllL pat.data s.data.length s.data)

/-- `apply_operator` from src/app/analyzer/src/dsl.rs. -/
def apply_operator (actual op expected : String) : Bool :=
  if op == "==" then actual == expected
  else if op == "!=" then actual != expected
  else if op == "in" then
    ((splitOnCharAux (Char.ofNat 44)
        (trimEndMatchesChar (Char.ofNat 93)
          (trimStartMatchesChar (Char.ofNat 91) expected)).data []).map
      (fun piece => trimAsciiWs (String.mk piece))).any
      (fun candidate => candidate == actual)
  else false

/-- The regex body extraction in the `regex(...)` arm of
`evaluate_expression`: `trim_start_matches("regex(").trim_end_matches(')')`. -/
def regexBody (field : String) : String :=
  trimEndMatchesChar (Char.ofNat 41) (trimStartMatchesStr "regex(" field)

/-- Core of `evaluate_expression` after tokenization.  `regexCompile`
stands for `Regex::new`: `none` models a pattern that fails to compile,
`some m` a compiled regex with match function `m`. -/
def evalTokens (regexCompile : String → Option (String → Bool))
    (tokens : List String) (flow : NormalizedFlow) : Except String Bool :=
  match tokens with
  | field :: op :: value0 :: _ =>
      let value := trimMatchesChar quoteChar value0
      if field == "proc.name" then
        Except.ok (apply_operator (flow.process.getD "") op value)
      else if field == "dst.port" then
        Except.ok (apply_operator (Nat.repr flow.dst_port) op value)
      else if field == "src.ip" then
        Except.ok (apply_operator flow.src_ip op value)
      else if field == "dst.ip" then
        Except.ok (apply_operator flow.dst_ip op value)
      else if strStarts field "regex(" then
        match regexCompile (regexBody field) with
        | some re => Except.ok (re flow.dst_ip || re flow.src_ip)
        | none => Except.error "invalid regex"
      else Except.error "unsupported field"
  | _ => Except.error "invalid expression"

/-- `evaluate_expression` from src/app/analyzer/src/dsl.rs. -/
def evaluate_expression (regexCompile : String → Option (String → Bool))
    (expr : String) (flow : NormalizedFlow) : Except String Bool :=
  evalTokens regexCompile (tokenizeExpr expr) flow

/-- `Rule::matches` from src/app/analyzer/src/dsl.rs: an evaluation
error is logged and treated as non-matching. -/
def Rule.matches (regexCompile : String → Option (String → Bool))
    (r : Rule) (flow : NormalizedFlow) : Bool :=
  match evaluate_expression regexCompile r.expression flow with
  | Except.ok v => v
  | Except.error _ => false

example :
    evaluate_expression (fun _ => none) "dst.port == 445"
      { window_start := 0, window_end := 0, proto := "TCP",
        src_ip := "10.0.0.1", src_port := 1234, dst_ip := "10.0.0.2",
        dst_port := 445, direction := FlowDirection.Lateral, bytes := 0,
        packets := 0, process := some "notesync.exe" } =
      Except.ok true := by
  rfl

/-! ## Analyzer (src/app/analyzer/src/lib.rs) -/

/-- The `Alert` built in the loop body of `Analyzer::evaluate_rules`.
`now` stands for the `Utc::now()` call. -/
def mkRuleAlert (now : Int) (r : Rule) (flow : NormalizedFlow) : Alert :=
  { id := "alert-" ++ r.id ++ "-" ++ Nat.repr flow.dst_port
    ts := now
    severity := r.severity
    rule_id := r.id
    summary := r.summary.getD "Rule match"
    flow_refs := [flow.src_ip ++ ":" ++ Nat.repr flow.src_port ++ "->" ++
      flow.dst_ip ++ ":" ++ Nat.repr flow.dst_port]
    process_ref := flow.process
    rationale := r.rationale.getD "Matched DSL condition"
    suggested_action := r.suggested_action }

/-- `Analyzer::evaluate_rules`: push an alert for every matching rule. -/
def evaluate_rules (regexCompile : String → Option (String → Bool))
    (rules : List Rule) (flow : NormalizedFlow) (now : Int) : List Alert :=
  rules.foldl
    (fun alerts r =>
      if Rule.matches regexCompile r flow then
        alerts ++ [mkRuleAlert now r flow]
      else alerts)
    []

/-- `max_history` computed in `Analyzer::new`:
`(baseline_window.num_minutes().max(1)) as usize * 60`, with the
baseline window given in whole minutes (chrono `num_minutes`). -/
def maxHistory (baselineMinutes : Int) : Nat :=
  (max baselineMinutes 1).toNat * 60

/-- The history update in `Analyzer::ingest`: drop the oldest entry when
the ring is at capacity, then append the new flow. -/
def ingestHistory (m : Nat) (history : List NormalizedFlow)
    (flow : NormalizedFlow) : List NormalizedFlow :=
  if history.length ≥ m then history.tail ++ [flow]
  else history ++ [flow]

/-- The history after a sequence of `ingest` calls starting from the
empty ring built by `Analyzer::new`. -/
def runHistory (m : Nat) (flows : List NormalizedFlow) : List NormalizedFlow :=
  flows.foldl (ingestHistory m) []

/-! ## Normalizer (src/app/normalizer/src/lib.rs)

`timestamp_subsec_nanos` on a chrono `DateTime` is the sub-second
nanosecond component of the time of day, i.e. the Euclidean remainder of
the epoch-nanosecond value modulo 10^9. -/

/-- `Normalizer::normalize` with constructor-supplied window `window`
(nanoseconds). -/
def normalizeFlow (window : Int) (event : FlowEvent) : NormalizedFlow :=
  let window_start := event.ts_first - event.ts_first % 1000000000
  { window_start := window_start
    window_end := event.ts_first + window
    proto := event.proto
    src_ip := event.src_ip
    src_port := event.src_port
    dst_ip := event.dst_ip
    dst_port := event.dst_port
    direction := event.direction
    bytes := event.bytes
    packets := event.packets
    process := event.process.bind (fun p => p.name) }

/-! ## Encrypted store (src/app/storage/src/lib.rs)

The AES-256-GCM primitive (`LessSafeKey::seal_in_place_separate_tag`
from ring) is a deterministic function of the key, nonce, AAD and
plaintext; it is taken as a function parameter `seal` returning the
ciphertext and the 16-byte tag.  `serde_json::to_vec` is likewise taken
as a parameter `jsonSer`. -/

/-- AEAD seal function: key, nonce, aad, plaintext ↦ (ciphertext, tag). -/
def SealFn : Type :=
  List Nat → List Nat → List Nat → List Nat → List Nat × List Nat

/-- `AAD_CONTEXT`: the bytes of `"nets-local-monitor"`. -/
def aadContext : List Nat :=
  "nets-local-monitor".data.map Char.toNat

/-- The fixed nonce `[0u8; 12]` used by `put_flow`. -/
def zeroNonce : List Nat := List.replicate 12 0

/-- A row of the `flows` table (ciphertext column holds
ciphertext-plus-tag). -/
structure FlowRow where
  ts_first : Int
  ts_last : Int
  proto : String
  src_ip : String
  dst_ip : String
  src_port : Nat
  dst_port : Nat
  bytes : Nat
  ciphertext : List Nat
deriving DecidableEq, Repr

/-- The row `put_flow` inserts for a flow: the JSON serialization is
encrypted with the all-zero nonce and the fixed AAD, and the tag is
appended to the ciphertext. -/
def put_flow_row (sealFn : SealFn) (jsonSer : FlowEvent → List Nat)
    (key : List Nat) (flow : FlowEvent) : FlowRow :=
  let serialized := jsonSer flow
  let sealed := sealFn key zeroNonce aadContext serialized
  { ts_first := flow.ts_first
    ts_last := flow.ts_last
    proto := flow.proto
    src_ip := flow.src_ip
    dst_ip := flow.dst_ip
    src_port := flow.src_port
    dst_port := flow.dst_port
    bytes := flow.bytes
    ciphertext := sealed.1 ++ sealed.2 }

/-- `put_flow`: append the encrypted row to the `flows` table. -/
def put_flow (sealFn : SealFn) (jsonSer : FlowEvent → List Nat)
    (key : List Nat) (table : List FlowRow) (flow : FlowEvent) :
    List FlowRow :=
  table ++ [put_flow_row sealFn jsonSer key flow]

/-- Rust `format!("{:?}", severity)` on the `Severity` enum. -/
def severityDebugStr : Severity → String
  | Severity.Low => "Low"
  | Severity.Medium => "Medium"
  | Severity.High => "High"

/-- A row of the `alerts` table (`ts` kept as epoch nanoseconds; the
RFC 3339 rendering is injective on instants and irrelevant here). -/
structure AlertRow where
  id : String
  ts : Int
  severity : String
  rule_id : String
  summary : String
  rationale : String
deriving DecidableEq, Repr

/-- The `alerts` row written for an alert. -/
def alertRow (a : Alert) : AlertRow :=
  { id := a.id, ts := a.ts, severity := severityDebugStr a.severity,
    rule_id := a.rule_id, summary := a.summary, rationale := a.rationale }

/-- `put_alert`: SQLite `INSERT OR REPLACE` keyed on `alert.id` — any
existing row with the same id is removed and the new row inserted. -/
def put_alert (table : List AlertRow) (a : Alert) : List AlertRow :=
  (table.filter (fun row => row.id != a.id)) ++ [alertRow a]

/-! ## Collector port decoding (src/app/collector/src/windows/network_monitor.rs) -/

/-- The port computation in `tcp_row_to_event` (and the other row
converters): `((row.dwLocalPort >> 8) | (row.dwLocalPort << 8)) as u16`,
where `dwLocalPort : u32` so the left shift wraps modulo 2^32 and the
`as u16` cast keeps the low 16 bits. -/
def port_from_word (w : Nat) : Nat :=
  ((w >>> 8) ||| ((w <<< 8) % 4294967296)) % 65536

/-- The spec's first formula: `((w >> 8) | (w << 8)) & 0xFFFF`
(mathematical, without the u32 wrap). -/
def portSpecWide (w : Nat) : Nat :=
  ((w >>> 8) ||| (w <<< 8)) &&& 65535

/-- The spec's second formula: `(raw >> 8) | ((raw & 0xFF) << 8)`
computed from the low 16 bits of `w`. -/
def portSpecLow16 (w : Nat) : Nat :=
  let raw := w % 65536
  (raw >>> 8) ||| ((raw &&& 255) <<< 8)

/-! ## IP address parsing and direction inference
(src/app/collector/src/windows/network_monitor.rs)

`is_private_ip` calls Rust's `str::parse::<IpAddr>()`.  That standard
parser is embedded here: dotted-quad IPv4 (1–3 decimal digits per
octet, no leading zeros, each ≤ 255) and RFC 4291 IPv6 (1–4 hex digit
groups, at most one `::` standing for at least one zero group, optional
embedded IPv4 tail). -/

/-- The colon character. -/
def colonChar : Char := Char.ofNat 58

/-- Decimal octet of an IPv4 address: 1–3 digits, no leading zero,
value ≤ 255. -/
def parseOctet (cs : List Char) : Option Nat :=
  if cs.length == 0 || cs.length > 3 then none
  else if !(cs.all Char.isDigit) then none
  else if cs.length > 1 && (cs.headD (Char.ofNat 48)) == Char.ofNat 48 then none
  else if cs.foldl (fun a c => a * 10 + (c.toNat - 48)) 0 ≤ 255 then
    some (cs.foldl (fun a c => a * 10 + (c.toNat - 48)) 0)
  else none

/-- Dotted-quad IPv4 parser over characters: exactly four octets. -/
def parseIpv4L (cs : List Char) : Option (Nat × Nat × Nat × Nat) :=
  match splitOnCharAux (Char.ofNat 46) cs [] with
  | [p1, p2, p3, p4] =>
      match parseOctet p1, parseOctet p2, parseOctet p3, parseOctet p4 with
      | some a, some b, some c, some d => some (a, b, c, d)
      | _, _, _, _ => none
  | _ => none

/-- Value of one hex digit, if any. -/
def hexVal (c : Char) : Option Nat :=
  if 48 ≤ c.toNat && c.toNat ≤ 57 then some (c.toNat - 48)
  else if 97 ≤ c.toNat && c.toNat ≤ 102 then some (c.toNat - 87)
  else if 65 ≤ c.toNat && c.toNat ≤ 70 then some (c.toNat - 55)
  else none

/-- Accumulating hex-group evaluator. -/
def parseHexAux : List Char → Nat → Option Nat
  | [], acc => some acc
  | c :: cs, acc =>
      match hexVal c with
      | some d => parseHexAux cs (acc * 16 + d)
      | none => none

/-- One IPv6 group: 1–4 hex digits. -/
def parseHexGroup (cs : List Char) : Option Nat :=
  if cs.length == 0 || cs.length > 4 then none
  else parseHexAux cs 0

/-- Split a character list on every occurrence of `::`. -/
def splitDoubleColonAux : List Char → List Char → List (List Char)
  | [], acc => [acc.reverse]
  | [c], acc => [(c :: acc).reverse]
  | c1 :: c2 :: cs, acc =>
      if c1 == colonChar && c2 == colonChar then
        acc.reverse :: splitDoubleColonAux cs []
      else splitDoubleColonAux (c2 :: cs) (c1 :: acc)

/-- Parse a `:`-separated group list where the final group may be an
embedded dotted-quad IPv4 (contributing two 16-bit groups). -/
def parseGroupsV4End (parts : List (List Char)) : Option (List Nat) :=
  match parts.getLast? with
  | none => some []
  | some last =>
      match parts.dropLast.mapM parseHexGroup with
      | none => none
      | some gs =>
          match parseHexGroup last with
          | some g => some (gs ++ [g])
          | none =>
              match parseIpv4L last with
              | some (a, b, c, d) => some (gs ++ [a * 256 + b, c * 256 + d])
              | none => none

/-- IPv6 parser over characters, returning the eight 16-bit segments. -/
def parseIpv6L (cs : List Char) : Option (List Nat) :=
  match splitDoubleColonAux cs [] with
  | [whole] =>
      match parseGroupsV4End (splitOnCharAux colonChar whole []) with
      | some gs => if gs.length == 8 then some gs else none
      | none => none
  | [l, r] =>
      match (if l.isEmpty then [] else splitOnCharAux colonChar l []).mapM
          parseHexGroup,
        parseGroupsV4End
          (if r.isEmpty then [] else splitOnCharAux colonChar r []) with
      | some lg, some rg =>
          if lg.length + rg.length ≤ 7 then
            some (lg ++ List.replicate (8 - (lg.length + rg.length)) 0 ++ rg)
          else none
      | _, _ => none
  | _ => none

/-- Parsed form of Rust `std::net::IpAddr`. -/
inductive IpAddr where
  | v4 (a b c d : Nat)
  | v6 (segs : List Nat)
deriving DecidableEq, Repr

/-- Rust `str::parse::<IpAddr>()`: IPv4 first, then IPv6. -/
def parseIp (s : String) : Option IpAddr :=
  match parseIpv4L s.data with
  | some (a, b, c, d) => some (IpAddr.v4 a b c d)
  | none =>
      match parseIpv6L s.data with
      | some segs => some (IpAddr.v6 segs)
      | none => none

/-- `NetworkMonitor::is_private_ip`. -/
def is_private_ip (ip : String) : Bool :=
  match parseIp ip with
  | some (IpAddr.v4 a b _ _) =>
      a == 10 || (a == 172 && (decide (16 ≤ b) && decide (b ≤ 31))) ||
        (a == 192 && b == 168) || (a == 169 && b == 254)
  | some (IpAddr.v6 segs) =>
      ((segs.headD 0) &&& 0xffc0) == 0xfe80 ||
        ((segs.headD 0) &&& 0xfe00) == 0xfc00
  | none => false

/-- `NetworkMonitor::infer_direction`. -/
def infer_direction (local_ip remote_ip : String) : FlowDirection :=
  if remote_ip == "0.0.0.0" || remote_ip == "::" then FlowDirection.Inbound
  else if is_private_ip remote_ip then FlowDirection.Lateral
  else FlowDirection.Outbound

/-! ## Anomaly detector (src/app/collector/src/windows/anomaly_detector.rs) -/

/-- The `Anomaly` enum. -/
inductive Anomaly where
  | HiddenListener (pid : Int) (port : Nat) (process_name : Option String)
  | UnexpectedP2P (src_ip dst_ip : String) (dst_port : Nat)
  | ArpSpoofing (ip old_mac new_mac : String)
  | PortScanning (src_ip target_ip : String) (port_count : Nat)
  | LateralMovement (src_ip dst_ip protocol : String)
  | SuspiciousDns (domain reason : String)
  | LocalProxy (pid : Int) (port : Nat) (process_name : Option String)
  | UnexpectedMulticast (protocol dst_ip : String)
deriving DecidableEq, Repr

/-- `AnomalyDetector::is_suspicious_listener`. -/
def is_suspicious_listener (process : ProcessIdentity) (port : Nat) : Bool :=
  (decide (port < 1024) &&
    (match process.exe_path with
     | some path =>
         !(strStarts path "C:\\Windows\\") &&
           !(strStarts path "C:\\Program Files\\")
     | none => false)) ||
  (match process.signed with
   | some sgn => !sgn && decide (port < 49152)
   | none => false)

/-- `AnomalyDetector::check_hidden_listener`.  The `known_listeners`
map (PID → set of ports) is embedded as the set of (pid, port) pairs it
contains; the function returns the updated state together with the
optional anomaly. -/
def check_hidden_listener (listeners : List (Int × Nat)) (flow : FlowEvent) :
    List (Int × Nat) × Option Anomaly :=
  if flow.direction ≠ FlowDirection.Inbound then (listeners, none)
  else
    match flow.state with
    | some stateStr =>
        if stateStr == "LISTEN" then
          match flow.process with
          | some process =>
              if (process.pid, flow.src_port) ∈ listeners then (listeners, none)
              else
                let listeners2 := (process.pid, flow.src_port) :: listeners
                if is_suspicious_listener process flow.src_port then
                  (listeners2,
                    some (Anomaly.HiddenListener process.pid flow.src_port
                      process.name))
                else (listeners2, none)
          | none => (listeners, none)
        else (listeners, none)
    | none => (listeners, none)

/-! ## Concrete fixtures used by witnesses and counterexamples -/

/-- A concrete `FlowEvent` (the normalizer test flow, with a sub-second
timestamp component). -/
def exFlowEvent : FlowEvent :=
  { ts_first := 1700000000123456789, ts_last := 1700000005123456789,
    proto := "TCP", src_ip := "10.0.0.1", src_port := 12345,
    dst_ip := "10.0.0.2", dst_port := 443, iface := some "eth0",
    direction := FlowDirection.Outbound, state := some "ESTABLISHED",
    bytes := 1024, packets := 10, process := none, layer2 := none,
    risk := none, sni := none, alpn := none, ja3 := none,
    dns_qname := none, dns_qtype := none, dns_rcode := none }

/-- `exFlowEvent` with a different byte counter (same ports). -/
def exFlowEventB : FlowEvent :=
  { exFlowEvent with bytes := 999 }

/-- The S2 flow: `src=10.0.0.1:1234, dst=10.0.0.2:445`. -/
def exNormFlow : NormalizedFlow :=
  { window_start := 0, window_end := 60000000000, proto := "TCP",
    src_ip := "10.0.0.1", src_port := 1234, dst_ip := "10.0.0.2",
    dst_port := 445, direction := FlowDirection.Lateral, bytes := 0,
    packets := 0, process := some "notesync.exe" }

/-- The S2 rule: `smb-lateral` with expression `dst.port == 445`. -/
def exRuleSmb : Rule :=
  { id := "smb-lateral", severity := Severity.High, summary := none,
    rationale := none, suggested_action := none,
    expression := "dst.port == 445" }

/-- A rule whose expression has fewer than three tokens. -/
def exRuleBad : Rule :=
  { id := "broken", severity := Severity.Low, summary := none,
    rationale := none, suggested_action := none,
    expression := "nonsense" }

/-- First alert written for an id. -/
def exAlertFirst : Alert :=
  { id := "alert-smb-lateral-445", ts := 100, severity := Severity.Low,
    rule_id := "smb-lateral", summary := "first", flow_refs := [],
    process_ref := none, rationale := "first rationale",
    suggested_action := none }

/-- Second alert with the same id but different contents. -/
def exAlertSecond : Alert :=
  { id := "alert-smb-lateral-445", ts := 200, severity := Severity.High,
    rule_id := "smb-lateral", summary := "second", flow_refs := [],
    process_ref := none, rationale := "second rationale",
    suggested_action := none }

/-! ## C5 — normalizer windowing -/

/-- C5 (counterexample): the claim quantifies over *every*
constructor-supplied window duration, but with a zero window the code
produces `window_end = ts_first`, violating the claimed
`ts_first < window_end` at this explicit input. -/
theorem c5_window_counterexample :
    ¬ (exFlowEvent.ts_first < (normalizeFlow 0 exFlowEvent).window_end) := by
  decide

/-- C5 (amended): for every `FlowEvent` and every *positive* window
duration `W`, `normalize` subtracts exactly the sub-second nanosecond
remainder to get `window_start` (which therefore has zero sub-second
component), sets `window_end = ts_first + W`, and satisfies
`window_start ≤ ts_first < window_end`. -/
theorem c5_normalizer_windowing (window : Int) (event : FlowEvent)
    (hw : 0 < window) :
    (normalizeFlow window event).window_start =
        event.ts_first - event.ts_first % 1000000000 ∧
      (normalizeFlow window event).window_start % 1000000000 = 0 ∧
      (normalizeFlow window event).window_end - event.ts_first = window ∧
      (normalizeFlow window event).window_start ≤ event.ts_first ∧
      event.ts_first < (normalizeFlow window event).window_end := by
  refine ⟨rfl, ?_, ?_, ?_, ?_⟩ <;> simp only [normalizeFlow] <;> omega

/-- C5 witness: the amended theorem applied at `W = 60 s` and the
concrete event. -/
theorem c5_normalizer_windowing_witness :
    (normalizeFlow 60000000000 exFlowEvent).window_start =
        exFlowEvent.ts_first - exFlowEvent.ts_first % 1000000000 ∧
      (normalizeFlow 60000000000 exFlowEvent).window_start %
          1000000000 = 0 ∧
      (normalizeFlow 60000000000 exFlowEvent).window_end -
          exFlowEvent.ts_first = 60000000000 ∧
      (normalizeFlow 60000000000 exFlowEvent).window_start ≤
          exFlowEvent.ts_first ∧
      exFlowEvent.ts_first <
        (normalizeFlow 60000000000 exFlowEvent).window_end :=
  c5_normalizer_windowing 60000000000 exFlowEvent (by norm_num)

/-! ## C9 — alert storage idempotence -/

/-- C9: `put_alert` is keyed on the alert id; writing two alerts with
the same id leaves the table as if only the second had been written,
and exactly one row carries that id, with the second call's contents. -/
theorem c9_put_alert_idempotent (table : List AlertRow) (a1 a2 : Alert)
    (h : a1.id = a2.id) :
    put_alert (put_alert table a1) a2 = put_alert table a2 ∧
      (put_alert (put_alert table a1) a2).filter
        (fun row => row.id == a2.id) = [alertRow a2] := by
  constructor
  · simp [put_alert, List.filter_append, List.filter_filter, alertRow, h,
      Bool.and_self]
  · simp [put_alert, List.filter_append, List.filter_filter, alertRow, h,
      bne, Bool.and_self]

/-- C9 witness: two concrete alerts with the same id on the empty
table. -/
theorem c9_put_alert_idempotent_witness :
    put_alert (put_alert [] exAlertFirst) exAlertSecond =
        put_alert [] exAlertSecond ∧
      (put_alert (put_alert [] exAlertFirst) exAlertSecond).filter
        (fun row => row.id == exAlertSecond.id) = [alertRow exAlertSecond] :=
  c9_put_alert_idempotent [] exAlertFirst exAlertSecond rfl

/-! ## C2 — store encryption determinism from the fixed nonce -/

/-- C2: `put_flow` always seals with the all-zero 12-byte nonce and the
fixed AAD `"nets-local-monitor"`; hence for a fixed key, two flows with
equal JSON serializations produce byte-identical ciphertext-plus-tag
blobs in their `flows` rows. -/
theorem c2_put_flow_fixed_nonce_deterministic (sealFn : SealFn)
    (jsonSer : FlowEvent → List Nat) (key : List Nat) (f1 f2 : FlowEvent)
    (h : jsonSer f1 = jsonSer f2) :
    (put_flow_row sealFn jsonSer key f1).ciphertext =
        (sealFn key (List.replicate 12 0) aadContext (jsonSer f1)).1 ++
          (sealFn key (List.replicate 12 0) aadContext (jsonSer f1)).2 ∧
      (put_flow_row sealFn jsonSer key f1).ciphertext =
        (put_flow_row sealFn jsonSer key f2).ciphertext := by
  refine ⟨rfl, ?_⟩
  simp [put_flow_row, h]

/-- C2 witness: two distinct concrete flows whose (stub) serializations
agree, under a concrete seal function and key. -/
theorem c2_put_flow_fixed_nonce_deterministic_witness :
    (put_flow_row (fun _ _ _ p => (p, List.replicate 16 0))
          (fun f => [f.src_port]) (List.replicate 32 0)
          exFlowEvent).ciphertext =
        ((fun _ _ _ p => (p, List.replicate 16 0) : SealFn)
            (List.replicate 32 0) (List.replicate 12 0) aadContext
            [exFlowEvent.src_port]).1 ++
          ((fun _ _ _ p => (p, List.replicate 16 0) : SealFn)
            (List.replicate 32 0) (List.replicate 12 0) aadContext
            [exFlowEvent.src_port]).2 ∧
      (put_flow_row (fun _ _ _ p => (p, List.replicate 16 0))
          (fun f => [f.src_port]) (List.replicate 32 0)
          exFlowEvent).ciphertext =
        (put_flow_row (fun _ _ _ p => (p, List.replicate 16 0))
          (fun f => [f.src_port]) (List.replicate 32 0)
          exFlowEventB).ciphertext :=
  c2_put_flow_fixed_nonce_deterministic _ _ _ exFlowEvent exFlowEventB rfl

/-! ## C4 — alert construction for a matching rule -/

/-- C4: whenever a rule matches a flow, the analyzer emits exactly the
alert with id `alert-{rule_id}-{dst_port}`, defaulted summary and
rationale, and the single flow reference
`{src_ip}:{src_port}->{dst_ip}:{dst_port}`. -/
theorem c4_rule_match_alert (regexCompile : String → Option (String → Bool))
    (r : Rule) (flow : NormalizedFlow) (now : Int)
    (h : Rule.matches regexCompile r flow = true) :
    evaluate_rules regexCompile [r] flow now =
      [{ id := "alert-" ++ r.id ++ "-" ++ Nat.repr flow.dst_port,
         ts := now, severity := r.severity, rule_id := r.id,
         summary := r.summary.getD "Rule match",
         flow_refs := [flow.src_ip ++ ":" ++ Nat.repr flow.src_port ++
           "->" ++ flow.dst_ip ++ ":" ++ Nat.repr flow.dst_port],
         process_ref := flow.process,
         rationale := r.rationale.getD "Matched DSL condition",
         suggested_action := r.suggested_action }] := by
  simp [evaluate_rules, h, mkRuleAlert]

/-- C4 witness: the S2 scenario — rule `dst.port == 445` on the flow
`10.0.0.1:1234 -> 10.0.0.2:445` yields exactly one alert with id
`alert-smb-lateral-445`. -/
theorem c4_rule_match_alert_witness :
    Rule.matches (fun _ => none) exRuleSmb exNormFlow = true ∧
      evaluate_rules (fun _ => none) [exRuleSmb] exNormFlow 0 =
        [{ id := "alert-smb-lateral-445", ts := 0,
           severity := Severity.High, rule_id := "smb-lateral",
           summary := "Rule match",
           flow_refs := ["10.0.0.1:1234->10.0.0.2:445"],
           process_ref := some "notesync.exe",
           rationale := "Matched DSL condition",
           suggested_action := none }] := by
  refine ⟨rfl, ?_⟩
  rw [c4_rule_match_alert (fun _ => none) exRuleSmb exNormFlow 0 rfl]
  rfl

/-! ## C10 — the DSL inspects only the first three tokens -/

/-- C10: token-level evaluation depends only on the first three
whitespace-delimited tokens; any further tokens are silently ignored. -/
theorem c10_first_three_tokens
    (regexCompile : String → Option (String → Bool))
    (tokens : List String) (flow : NormalizedFlow)
    (h : 3 ≤ tokens.length) :
    evalTokens regexCompile tokens flow =
      evalTokens regexCompile (tokens.take 3) flow := by
  rcases tokens with _ | ⟨f, _ | ⟨o, _ | ⟨v, rest⟩⟩⟩
  · simp at h
  · simp at h
  · simp at h
  · rfl

/-- C10 witness: a trailing attempted `and`-clause is ignored — the
five-token expression evaluates exactly like its first three tokens. -/
theorem c10_first_three_tokens_witness :
    evaluate_expression (fun _ => none)
        "dst.port == 445 and proc.name == x" exNormFlow =
      evaluate_expression (fun _ => none) "dst.port == 445" exNormFlow := by
  have h := c10_first_three_tokens (fun _ => none)
    (tokenizeExpr "dst.port == 445 and proc.name == x") exNormFlow
    (by decide)
  have e : (tokenizeExpr "dst.port == 445 and proc.name == x").take 3 =
      tokenizeExpr "dst.port == 445" := by decide
  unfold evaluate_expression
  rw [h, e]

/-! ## C3 — unparseable rules never match and never throw -/

/-- C3: for every flow, a rule whose expression fails to parse — fewer
than three whitespace tokens, an unsupported field, or a `regex(...)`
field whose pattern does not compile — evaluates to `false` through
`Rule::matches` (the error is swallowed, none propagates). -/
theorem c3_unparseable_rule_matches_false
    (regexCompile : String → Option (String → Bool))
    (r : Rule) (flow : NormalizedFlow)
    (h : (tokenizeExpr r.expression).length < 3 ∨
      ∃ field op value rest,
        tokenizeExpr r.expression = field :: op :: value :: rest ∧
          field ∉ (["proc.name", "dst.port", "src.ip", "dst.ip"] :
            List String) ∧
          (strStarts field "regex(" = true →
            regexCompile (regexBody field) = none)) :
    Rule.matches regexCompile r flow = false := by
  unfold Rule.matches evaluate_expression
  rcases h with h | ⟨field, op, value, rest, heq, hfield, hre⟩
  · rcases htk : tokenizeExpr r.expression with _ | ⟨a, _ | ⟨b, _ | ⟨c, t⟩⟩⟩
    · rfl
    · rfl
    · rfl
    · rw [htk] at h; simp at h; omega
  · rw [heq]
    simp only [List.mem_cons, List.mem_singleton, not_or] at hfield
    obtain ⟨h1, h2, h3, h4, _⟩ := hfield
    simp only [evalTokens, beq_eq_false_iff_ne, ne_eq,
      beq_iff_eq, if_neg h1, if_neg h2, if_neg h3, if_neg h4]
    cases hs : strStarts field "regex(" with
    | true => simp [hs, hre hs]
    | false => simp [hs]

/-- C3 witness: a one-token expression is rejected by the tokenizer and
the rule does not match. -/
theorem c3_unparseable_rule_matches_false_witness :
    Rule.matches (fun _ => none) exRuleBad exNormFlow = false :=
  c3_unparseable_rule_matches_false (fun _ => none) exRuleBad exNormFlow
    (Or.inl (by decide))

/-! ## C6 — analyzer history bound -/

/-- The tail of `drop n` is `drop (n + 1)`. -/
theorem dropTailAux {α : Type} (l : List α) :
    ∀ n : Nat, (l.drop n).tail = l.drop (n + 1) := by
  induction l with
  | nil => intro n; simp
  | cons a t ih =>
      intro n
      cases n with
      | zero => simp
      | succ m => simpa using ih m

/-- Dropping at most the length of the left part distributes over
append. -/
theorem dropAppendAux {α : Type} (l1 l2 : List α) :
    ∀ n : Nat, n ≤ l1.length → (l1 ++ l2).drop n = l1.drop n ++ l2 := by
  induction l1 with
  | nil =>
      intro n hn
      simp at hn
      subst hn
      simp
  | cons a t ih =>
      intro n hn
      cases n with
      | zero => simp
      | succ m =>
          simp only [List.cons_append, List.drop_succ_cons]
          exact ih m (by simpa using hn)

/-- One `ingest` step on a history that is the last `m` elements of the
flows seen so far keeps it the last `m` elements. -/
theorem ingestHistoryStep (m : Nat) (hm : 1 ≤ m)
    (p : List NormalizedFlow) (f : NormalizedFlow) :
    ingestHistory m (p.drop (p.length - m)) f =
      (p ++ [f]).drop (p.length + 1 - m) := by
  unfold ingestHistory
  by_cases hp : p.length < m
  · have h0 : p.length - m = 0 := by omega
    have h1 : p.length + 1 - m = 0 := by omega
    rw [h0, h1]
    rw [if_neg (by simp; omega)]
    simp
  · push_neg at hp
    have hlen : (p.drop (p.length - m)).length = m := by
      simp [List.length_drop]; omega
    rw [if_pos (by rw [hlen])]
    rw [dropTailAux]
    have he : p.length - m + 1 = p.length + 1 - m := by omega
    rw [he, dropAppendAux p [f] (p.length + 1 - m) (by omega)]

/-- Folding `ingest` over any flow list keeps the history equal to the
last `m` ingested flows. -/
theorem runHistoryDrop (m : Nat) (hm : 1 ≤ m) :
    ∀ (fs p : List NormalizedFlow),
      fs.foldl (ingestHistory m) (p.drop (p.length - m)) =
        (p ++ fs).drop ((p ++ fs).length - m) := by
  intro fs
  induction fs with
  | nil => intro p; simp
  | cons f t ih =>
      intro p
      rw [List.foldl_cons, ingestHistoryStep m hm p f]
      have h2 := ih (p ++ [f])
      simp only [List.length_append, List.length_singleton] at h2
      rw [h2]
      simp only [List.append_assoc, List.singleton_append,
        List.length_append, List.length_cons]
      ring_nf

/-- C6: with `max_history = max(1, baseline_window_minutes) * 60`, the
history length never exceeds `max_history`, and after more than
`max_history` ingests it equals exactly the last `max_history` flows in
ingestion order. -/
theorem c6_analyzer_history_bound (baselineMinutes : Int)
    (fs : List NormalizedFlow) :
    (runHistory (maxHistory baselineMinutes) fs).length ≤
        maxHistory baselineMinutes ∧
      (fs.length > maxHistory baselineMinutes →
        runHistory (maxHistory baselineMinutes) fs =
            fs.drop (fs.length - maxHistory baselineMinutes) ∧
          (runHistory (maxHistory baselineMinutes) fs).length =
            maxHistory baselineMinutes) := by
  have hm : 1 ≤ maxHistory baselineMinutes := by
    unfold maxHistory
    have h1 := le_max_right baselineMinutes 1
    omega
  have key : runHistory (maxHistory baselineMinutes) fs =
      fs.drop (fs.length - maxHistory baselineMinutes) := by
    have h2 := runHistoryDrop (maxHistory baselineMinutes) hm fs []
    simpa [runHistory] using h2
  refine ⟨?_, fun hk => ⟨key, ?_⟩⟩
  · rw [key]; simp only [List.length_drop]; omega
  · rw [key]; simp only [List.length_drop]; omega

/-- C6 witness: with a one-minute baseline (`max_history = 60`), after
61 ingests the history is the last 60 flows and has length 60. -/
theorem c6_analyzer_history_bound_witness :
    (runHistory (maxHistory 1) (List.replicate 61 exNormFlow)).length ≤
        maxHistory 1 ∧
      (runHistory (maxHistory 1) (List.replicate 61 exNormFlow) =
          (List.replicate 61 exNormFlow).drop
            ((List.replicate 61 exNormFlow).length - maxHistory 1) ∧
        (runHistory (maxHistory 1) (List.replicate 61 exNormFlow)).length =
          maxHistory 1) :=
  ⟨(c6_analyzer_history_bound 1 (List.replicate 61 exNormFlow)).1,
    (c6_analyzer_history_bound 1 (List.replicate 61 exNormFlow)).2
      (by simp [maxHistory])⟩

/-! ## C7 — port byte order -/

/-- All `w` below 2^16 (the port field proper) give the same result
under the code's computation and the spec's low-16-bit formula. -/
theorem portLow16Agrees : ∀ w < 65536, port_from_word w = portSpecLow16 w := by
  intro w hw
  unfold port_from_word portSpecLow16
  have e32 : (4294967296 : Nat) = 2 ^ 32 := by norm_num
  have e16 : (65536 : Nat) = 2 ^ 16 := by norm_num
  have e8m : (255 : Nat) = 2 ^ 8 - 1 := by norm_num
  rw [e32, e16, e8m, Nat.mod_eq_of_lt (by omega : w < 2 ^ 16)]
  have hbit : ∀ j, 16 ≤ j → w.testBit j = false := by
    intro j hj
    exact Nat.testBit_lt_two_pow
      (lt_of_lt_of_le (by omega) (Nat.pow_le_pow_right (by norm_num) hj))
  apply Nat.eq_of_testBit_eq
  intro i
  simp only [Nat.testBit_mod_two_pow, Nat.testBit_or, Nat.testBit_and,
    Nat.testBit_two_pow_sub_one, Nat.testBit_shiftLeft,
    Nat.testBit_shiftRight]
  by_cases h8 : i < 8
  · have h16 : i < 16 := by omega
    have h32 : i < 32 := by omega
    simp [h8, h16, h32, show ¬(8 ≤ i) by omega]
  · by_cases h16 : i < 16
    · have h32 : i < 32 := by omega
      have hge : 8 ≤ i := by omega
      simp [h16, h32, hge, hbit (8 + i) (by omega),
        show i - 8 < 8 by omega]
    · simp [h16, show ¬(i - 8 < 8) by omega, hbit (8 + i) (by omega)]

/-- C7 (counterexample): the claim asserts the two spec formulas and
the code agree for *every* 32-bit word, but at `w = 65536` (bit 16 set,
low 16 bits zero) the code derives 256 while the low-16-bit formula
gives 0. -/
theorem c7_port_byte_order_counterexample :
    port_from_word 65536 = 256 ∧ portSpecLow16 65536 = 0 := by
  decide

/-- C7 (amended): the u16 the collector derives equals
`((w >> 8) | (w << 8)) & 0xFFFF` for every word `w`; and whenever the
word fits in 16 bits (`w < 2^16`, i.e. the upper two bytes are clear)
it also equals `(raw >> 8) | ((raw & 0xFF) << 8)` computed from the low
16 bits. -/
theorem c7_port_byte_order (w : Nat) :
    port_from_word w = portSpecWide w ∧
      (w < 65536 → port_from_word w = portSpecLow16 w) := by
  refine ⟨?_, fun hw => portLow16Agrees w hw⟩
  unfold port_from_word portSpecWide
  have e32 : (4294967296 : Nat) = 2 ^ 32 := by norm_num
  have e16 : (65536 : Nat) = 2 ^ 16 := by norm_num
  have e16m : (65535 : Nat) = 2 ^ 16 - 1 := by norm_num
  rw [e32, e16, e16m]
  apply Nat.eq_of_testBit_eq
  intro i
  simp only [Nat.testBit_mod_two_pow, Nat.testBit_or, Nat.testBit_and,
    Nat.testBit_two_pow_sub_one, Nat.testBit_shiftLeft,
    Nat.testBit_shiftRight]
  by_cases h16 : i < 16
  · have h32 : i < 32 := by omega
    simp [h16, h32]
  · simp [h16]

/-- C7 witness: at the real row word `0x901F` (port 8080) all three
computations agree. -/
theorem c7_port_byte_order_witness :
    36895 < 65536 ∧ port_from_word 36895 = portSpecLow16 36895 ∧
      port_from_word 36895 = portSpecWide 36895 :=
  ⟨by decide, (c7_port_byte_order 36895).2 (by decide),
    (c7_port_byte_order 36895).1⟩

/-! ## C8 — hidden-listener detection -/

/-- `is_suspicious_listener` characterised: privileged port with an
executable path outside the system directories, or an unsigned
executable below the ephemeral port range. -/
theorem is_suspicious_listener_iff (p : ProcessIdentity) (port : Nat) :
    is_suspicious_listener p port = true ↔
      ((port < 1024 ∧ ∃ path, p.exe_path = some path ∧
          ¬(strStarts path "C:\\Windows\\" = true ∨
            strStarts path "C:\\Program Files\\" = true)) ∨
        (p.signed = some false ∧ port < 49152)) := by
  unfold is_suspicious_listener
  cases hpath : p.exe_path with
  | none =>
      cases hsig : p.signed with
      | none => simp
      | some b => cases b <;> simp
  | some path =>
      cases hsig : p.signed with
      | none => simp [not_or]
      | some b => cases b <;> simp [not_or]

/-- C8: an Inbound LISTEN flow with an attached process whose
(pid, port) pair is new to the detector is flagged `HiddenListener`
exactly when (a) the port is privileged and the executable path lies
outside the standard system directories, or (b) the executable is
unsigned and the port is below 49152. -/
theorem c8_hidden_listener_iff (listeners : List (Int × Nat))
    (flow : FlowEvent) (process : ProcessIdentity)
    (hdir : flow.direction = FlowDirection.Inbound)
    (hstate : flow.state = some "LISTEN")
    (hproc : flow.process = some process)
    (hnew : (process.pid, flow.src_port) ∉ listeners) :
    (check_hidden_listener listeners flow).2 =
        some (Anomaly.HiddenListener process.pid flow.src_port
          process.name) ↔
      ((flow.src_port < 1024 ∧ ∃ path, process.exe_path = some path ∧
          ¬(strStarts path "C:\\Windows\\" = true ∨
            strStarts path "C:\\Program Files\\" = true)) ∨
        (process.signed = some false ∧ flow.src_port < 49152)) := by
  rw [← is_suspicious_listener_iff process flow.src_port]
  unfold check_hidden_listener
  simp only [hdir, hstate, hproc, ne_eq, not_true_eq_false, if_false,
    ite_false, beq_self_eq_true, if_true, ite_true, if_neg hnew]
  cases hsusp : is_suspicious_listener process flow.src_port <;>
    simp [hsusp]

/-- The S1 listener process: pid 1234, unsigned, outside system dirs. -/
def exProcListener : ProcessIdentity :=
  { pid := 1234, ppid := none, name := some "test.exe",
    exe_path := some "C:\\test\\test.exe", sha256_16 := none,
    user := none, signed := some false }

/-- The S1 flow: `src=0.0.0.0:8080`, Inbound, LISTEN, with
`exProcListener` attached. -/
def exListenFlow : FlowEvent :=
  { ts_first := 0, ts_last := 0, proto := "TCP", src_ip := "0.0.0.0",
    src_port := 8080, dst_ip := "0.0.0.0", dst_port := 0, iface := none,
    direction := FlowDirection.Inbound, state := some "LISTEN",
    bytes := 0, packets := 0, process := some exProcListener,
    layer2 := none, risk := none, sni := none, alpn := none, ja3 := none,
    dns_qname := none, dns_qtype := none, dns_rcode := none }

/-- C8 witness: the S1 flow on a fresh detector state yields
`HiddenListener{pid:1234, port:8080}`. -/
theorem c8_hidden_listener_iff_witness :
    (check_hidden_listener [] exListenFlow).2 =
      some (Anomaly.HiddenListener 1234 8080 (some "test.exe")) :=
  (c8_hidden_listener_iff [] exListenFlow exProcListener rfl rfl rfl
      (by decide)).mpr (Or.inr ⟨rfl, by decide⟩)

/-! ## C1 — direction inference -/

/-- A hex digit's value is below 16. -/
theorem hexVal_lt (c : Char) (d : Nat) (h : hexVal c = some d) : d < 16 := by
  unfold hexVal at h
  split at h
  · rename_i hc
    simp only [Bool.and_eq_true, decide_eq_true_eq] at hc
    injection h with h
    omega
  · split at h
    · rename_i hc
      simp only [Bool.and_eq_true, decide_eq_true_eq] at hc
      injection h with h
      omega
    · split at h
      · rename_i hc
        simp only [Bool.and_eq_true, decide_eq_true_eq] at hc
        injection h with h
        omega
      · exact absurd h (by simp)

/-- Accumulator bound for the hex-group evaluator. -/
theorem parseHexAux_lt :
    ∀ (cs : List Char) (acc v : Nat), parseHexAux cs acc = some v →
      v < (acc + 1) * 16 ^ cs.length := by
  intro cs
  induction cs with
  | nil =>
      intro acc v h
      simp only [parseHexAux, Option.some.injEq] at h
      simp [← h]
  | cons c cs ih =>
      intro acc v h
      simp only [parseHexAux] at h
      cases hv : hexVal c with
      | none => rw [hv] at h; simp at h
      | some d =>
          rw [hv] at h
          have hd := hexVal_lt c d hv
          have hbound := ih (acc * 16 + d) v h
          calc v < (acc * 16 + d + 1) * 16 ^ cs.length := hbound
            _ ≤ ((acc + 1) * 16) * 16 ^ cs.length := by
                  apply Nat.mul_le_mul_right
                  omega
            _ = (acc + 1) * 16 ^ (cs.length + 1) := by ring

/-- Every parsed hex group fits in 16 bits. -/
theorem parseHexGroup_lt (cs : List Char) (v : Nat)
    (h : parseHexGroup cs = some v) : v < 65536 := by
  unfold parseHexGroup at h
  split at h
  · simp at h
  · rename_i hc
    simp only [Bool.or_eq_true, not_or, beq_iff_eq, decide_eq_true_eq] at hc
    have hlen : cs.length ≤ 4 := by omega
    have hb := parseHexAux_lt cs 0 v h
    calc v < 1 * 16 ^ cs.length := hb
      _ ≤ 1 * 16 ^ 4 := by
            apply Nat.mul_le_mul_left
            exact Nat.pow_le_pow_right (by norm_num) hlen
      _ = 65536 := by norm_num

/-- A parsed octet is at most 255. -/
theorem parseOctet_le (cs : List Char) (v : Nat)
    (h : parseOctet cs = some v) : v ≤ 255 := by
  unfold parseOctet at h
  split at h
  · simp at h
  · split at h
    · simp at h
    · split at h
      · simp at h
      · split at h
        · rename_i hle
          injection h with h
          omega
        · simp at h

/-- The four octets of a parsed IPv4 are at most 255 each. -/
theorem parseIpv4L_le (cs : List Char) (a b c d : Nat)
    (h : parseIpv4L cs = some (a, b, c, d)) :
    a ≤ 255 ∧ b ≤ 255 ∧ c ≤ 255 ∧ d ≤ 255 := by
  unfold parseIpv4L at h
  split at h
  · rename_i p1 p2 p3 p4 _
    split at h
    · rename_i a0 b0 c0 d0 h1 h2 h3 h4
      rw [Option.some.injEq, Prod.ext_iff, Prod.ext_iff, Prod.ext_iff] at h
      obtain ⟨ha, hb, hc, hd⟩ := h
      subst ha; subst hb; subst hc; subst hd
      exact ⟨parseOctet_le p1 _ h1, parseOctet_le p2 _ h2,
        parseOctet_le p3 _ h3, parseOctet_le p4 _ h4⟩
    · simp at h
  · simp at h

/-- Hex-group bound through `mapM` over a part list. -/
theorem mapM_parseHexGroup_lt :
    ∀ (ps : List (List Char)) (gs : List Nat),
      ps.mapM parseHexGroup = some gs → ∀ x ∈ gs, x < 65536 := by
  intro ps
  induction ps with
  | nil =>
      intro gs h x hx
      simp only [List.mapM_nil, Option.pure_def, Option.some.injEq] at h
      rw [← h] at hx
      simp at hx
  | cons p ps ih =>
      intro gs h x hx
      rw [List.mapM_cons] at h
      cases hp : parseHexGroup p with
      | none => rw [hp] at h; simp at h
      | some g =>
          rw [hp] at h
          cases hps : ps.mapM parseHexGroup with
          | none => rw [hps] at h; simp at h
          | some gs0 =>
              rw [hps] at h
              simp only [Option.bind_eq_bind, Option.some_bind,
                Option.pure_def, Option.some.injEq] at h
              rw [← h] at hx
              rcases List.mem_cons.mp hx with he | hm
              · rw [he]; exact parseHexGroup_lt p g hp
              · exact ih gs0 hps x hm

/-- Segment bound through `parseGroupsV4End`. -/
theorem parseGroupsV4End_lt (parts : List (List Char)) (gs : List Nat)
    (h : parseGroupsV4End parts = some gs) : ∀ x ∈ gs, x < 65536 := by
  unfold parseGroupsV4End at h
  split at h
  · simp only [Option.some.injEq] at h
    intro x hx
    rw [← h] at hx
    simp at hx
  · rename_i last hlast
    split at h
    · simp at h
    · rename_i front hfront
      split at h
      · rename_i g hg
        simp only [Option.some.injEq] at h
        intro x hx
        rw [← h] at hx
        rcases List.mem_append.mp hx with hf | hs
        · exact mapM_parseHexGroup_lt _ front hfront x hf
        · simp only [List.mem_singleton] at hs
          rw [hs]
          exact parseHexGroup_lt last g hg
      · split at h
        · rename_i a b c d hv4
          simp only [Option.some.injEq] at h
          have hb := parseIpv4L_le last a b c d hv4
          intro x hx
          rw [← h] at hx
          rcases List.mem_append.mp hx with hf | hs
          · exact mapM_parseHexGroup_lt _ front hfront x hf
          · simp only [List.mem_cons, List.not_mem_nil, or_false] at hs
            rcases hs with h1 | h2 <;> omega
        · simp at h

/-- Segment bound for the full IPv6 parser: every returned 16-bit
segment is below 2^16. -/
theorem parseIpv6L_lt (cs : List Char) (segs : List Nat)
    (h : parseIpv6L cs = some segs) : ∀ x ∈ segs, x < 65536 := by
  unfold parseIpv6L at h
  split at h
  · split at h
    · rename_i gs hgs
      split at h
      · simp only [Option.some.injEq] at h
        intro x hx
        exact parseGroupsV4End_lt _ gs hgs x (h ▸ hx)
      · simp at h
    · simp at h
  · split at h
    · rename_i lg rg hlg hrg
      split at h
      · simp only [Option.some.injEq] at h
        intro x hx
        rw [← h] at hx
        rcases List.mem_append.mp hx with h1 | h2
        · rcases List.mem_append.mp h1 with h3 | h4
          · exact mapM_parseHexGroup_lt _ lg hlg x h3
          · have := List.eq_of_mem_replicate h4
            omega
        · exact parseGroupsV4End_lt _ rg hrg x h2
      · simp at h
    · simp at h
  · simp at h

/-- The first segment of a parsed IPv6 is below 2^16. -/
theorem parseIpv6L_headD_lt (cs : List Char) (segs : List Nat)
    (h : parseIpv6L cs = some segs) : segs.headD 0 < 65536 := by
  cases segs with
  | nil => simp
  | cons s t => exact parseIpv6L_lt cs _ h s (by simp)

/-- Inversion of `parseIp` on an IPv6 result. -/
theorem parseIp_v6 (s : String) (segs : List Nat)
    (h : parseIp s = some (IpAddr.v6 segs)) :
    parseIpv6L s.data = some segs := by
  unfold parseIp at h
  split at h
  · simp at h
  · split at h
    · rename_i segs2 h2
      simp only [Option.some.injEq, IpAddr.v6.injEq] at h
      rw [← h]
      exact h2
    · simp at h

/-- A bit-window mask: `&&&` with `(2^a - 1) <<< b` extracts bits
`b..b+a-1` in place. -/
theorem and_mask_window (s a b : Nat) :
    s &&& ((2 ^ a - 1) <<< b) = ((s >>> b) % 2 ^ a) <<< b := by
  apply Nat.eq_of_testBit_eq
  intro i
  simp only [Nat.testBit_and, Nat.testBit_shiftLeft, Nat.testBit_shiftRight,
    Nat.testBit_mod_two_pow, Nat.testBit_two_pow_sub_one, ge_iff_le]
  by_cases hb : b ≤ i
  · have hi : b + (i - b) = i := by omega
    simp only [hb, decide_eq_true_eq, hi, decide_True, Bool.true_and]
    cases s.testBit i <;> simp
  · simp [hb]

/-- The `fe80::/10` mask test as a range, for first segments below
2^16. -/
theorem mask_ffc0_iff (s : Nat) (hs : s < 65536) :
    s &&& 65472 = 65152 ↔ (65152 ≤ s ∧ s ≤ 65215) := by
  have e : (65472 : Nat) = (2 ^ 10 - 1) <<< 6 := by decide
  rw [e, and_mask_window, Nat.shiftLeft_eq, Nat.shiftRight_eq_div_pow]
  norm_num
  omega

/-- The `fc00::/7` mask test as a range, for first segments below
2^16. -/
theorem mask_fe00_iff (s : Nat) (hs : s < 65536) :
    s &&& 65024 = 64512 ↔ (64512 ≤ s ∧ s ≤ 65023) := by
  have e : (65024 : Nat) = (2 ^ 7 - 1) <<< 9 := by decide
  rw [e, and_mask_window, Nat.shiftLeft_eq, Nat.shiftRight_eq_div_pow]
  norm_num
  omega

/-- The private classes of the amended claim, on parsed addresses:
RFC 1918 / link-local IPv4 (without loopback) and link-local / ULA IPv6
(without loopback), looking only at the leading bits the code tests. -/
def IpPrivateClassAmended : IpAddr → Prop
  | IpAddr.v4 a b _ _ =>
      a = 10 ∨ (a = 172 ∧ 16 ≤ b ∧ b ≤ 31) ∨ (a = 192 ∧ b = 168) ∨
        (a = 169 ∧ b = 254)
  | IpAddr.v6 segs =>
      (65152 ≤ segs.headD 0 ∧ segs.headD 0 ≤ 65215) ∨
        (64512 ≤ segs.headD 0 ∧ segs.headD 0 ≤ 65023)

/-- `is_private_ip` holds exactly when the string parses to an address
in one of the amended private classes. -/
theorem is_private_ip_iff (r : String) :
    is_private_ip r = true ↔
      ∃ ip, parseIp r = some ip ∧ IpPrivateClassAmended ip := by
  unfold is_private_ip
  cases hp : parseIp r with
  | none => simp [hp]
  | some ip =>
      cases ip with
      | v4 a b c d =>
          simp only [hp, Option.some.injEq]
          simp [IpPrivateClassAmended, Bool.or_eq_true, Bool.and_eq_true,
            beq_iff_eq, decide_eq_true_eq, or_assoc]
      | v6 segs =>
          have hb := parseIpv6L_headD_lt r.data segs (parseIp_v6 r segs hp)
          simp only [hp, Option.some.injEq]
          simp only [Bool.or_eq_true, beq_iff_eq]
          rw [show (0xffc0 : Nat) = 65472 from rfl,
            show (0xfe80 : Nat) = 65152 from rfl,
            show (0xfe00 : Nat) = 65024 from rfl,
            show (0xfc00 : Nat) = 64512 from rfl,
            mask_ffc0_iff _ hb, mask_fe00_iff _ hb]
          constructor
          · intro h
            exact ⟨IpAddr.v6 segs, rfl, h⟩
          · rintro ⟨ip, hip, hcl⟩
            subst hip
            exact hcl

/-- C1 (amended): the code classifies on the remote address alone —
Inbound iff the remote is `0.0.0.0` or `::` (`*` is not special-cased);
else Lateral iff the remote parses into one of the private classes
(v4 10/8, 172.16/12, 192.168/16, 169.254/16; v6 fe80::/10, fc00::/7 —
loopback is not included); else Outbound.  The local address is
irrelevant. -/
theorem c1_direction_amended (local_ip remote_ip : String) :
    (infer_direction local_ip remote_ip = FlowDirection.Inbound ↔
        (remote_ip = "0.0.0.0" ∨ remote_ip = "::")) ∧
      (infer_direction local_ip remote_ip = FlowDirection.Lateral ↔
        (¬(remote_ip = "0.0.0.0" ∨ remote_ip = "::") ∧
          ∃ ip, parseIp remote_ip = some ip ∧ IpPrivateClassAmended ip)) ∧
      (infer_direction local_ip remote_ip = FlowDirection.Outbound ↔
        (¬(remote_ip = "0.0.0.0" ∨ remote_ip = "::") ∧
          ¬∃ ip, parseIp remote_ip = some ip ∧ IpPrivateClassAmended ip)) := by
  unfold infer_direction
  by_cases hin : remote_ip = "0.0.0.0" ∨ remote_ip = "::"
  · have hb : (remote_ip == "0.0.0.0" || remote_ip == "::") = true := by
      rcases hin with h | h <;> simp [h]
    simp [hb, hin]
  · have hb : (remote_ip == "0.0.0.0" || remote_ip == "::") = false := by
      simp only [Bool.or_eq_false_iff, beq_eq_false_iff_ne, ne_eq]
      exact ⟨fun h => hin (Or.inl h), fun h => hin (Or.inr h)⟩
    rw [← is_private_ip_iff]
    cases hp : is_private_ip remote_ip <;> simp [hb, hp, hin]

/-! Claim-side model, for refutation of C1 as written. -/

/-- The private classes named by the claim, including v4 loopback and
v6 loopback. -/
inductive PrivClass where
  | v4net10
  | v4net172
  | v4net192
  | v4link
  | v4loop
  | v6link
  | v6ula
  | v6loop
deriving DecidableEq, Repr

/-- Modelled from the claim (not from the code): the private class an
address string falls into, if any. -/
def privateClassOf (s : String) : Option PrivClass :=
  match parseIp s with
  | some (IpAddr.v4 a b _ _) =>
      if a = 10 then some PrivClass.v4net10
      else if a = 172 ∧ 16 ≤ b ∧ b ≤ 31 then some PrivClass.v4net172
      else if a = 192 ∧ b = 168 then some PrivClass.v4net192
      else if a = 169 ∧ b = 254 then some PrivClass.v4link
      else if a = 127 then some PrivClass.v4loop
      else none
  | some (IpAddr.v6 segs) =>
      if 65152 ≤ segs.headD 0 ∧ segs.headD 0 ≤ 65215 then
        some PrivClass.v6link
      else if 64512 ≤ segs.headD 0 ∧ segs.headD 0 ≤ 65023 then
        some PrivClass.v6ula
      else if segs = [0, 0, 0, 0, 0, 0, 0, 1] then some PrivClass.v6loop
      else none
  | none => none

/-- Modelled from the claim (not from the code): Inbound for
`0.0.0.0`/`::`/`*`; Lateral when both addresses fall in the same
private class; else Outbound. -/
def claim_direction (local_ip remote_ip : String) : FlowDirection :=
  if remote_ip = "0.0.0.0" ∨ remote_ip = "::" ∨ remote_ip = "*" then
    FlowDirection.Inbound
  else
    match privateClassOf local_ip, privateClassOf remote_ip with
    | some c1, some c2 =>
        if c1 = c2 then FlowDirection.Lateral else FlowDirection.Outbound
    | _, _ => FlowDirection.Outbound

/-- C1 (counterexample): for local `8.8.8.8` (public) and remote
`10.0.0.1` (private), the claim requires Outbound — the pair is not in
a common private class — but the code, which tests only the remote
address, returns Lateral. -/
theorem c1_direction_counterexample :
    infer_direction "8.8.8.8" "10.0.0.1" = FlowDirection.Lateral ∧
      claim_direction "8.8.8.8" "10.0.0.1" = FlowDirection.Outbound := by
  constructor <;> rfl
